import Mathlib

/-!
Verification of the IMAP protocol engine of the `velo` mail client
(`src-tauri/src/imap/client.rs` and `src-tauri/src/commands.rs`).

Rust strings are modelled as `List Char` (the protocol traffic these
functions see is ASCII, where bytes and chars coincide; the raw byte
stream of the fallback engine is likewise a `List Char` with one entry
per byte).  Rust's `u32`/`usize`/`i64` `parse` bounds are made explicit.
Where a Rust predicate is Unicode-aware (`char::is_whitespace`) the model
uses Lean's `Char.isWhitespace` (the ASCII subset), which agrees on all
protocol input considered here.
-/

namespace Velo

/-- Index of the first occurrence of `pat` in `hay` (Rust `str::find` for a
string pattern): the least `i` such that `pat` is a prefix of `hay.drop i`. -/
def findSub (pat : List Char) : List Char → Option Nat
  | [] => if pat = [] then some 0 else none
  | h :: t => if pat <+: (h :: t) then some 0 else (findSub pat t).map (· + 1)

/-- Rust `str::contains` for a string pattern. -/
def containsSub (hay pat : List Char) : Bool :=
  (findSub pat hay).isSome

/-- Value of a nonempty all-digit string (the core of Rust integer `parse`). -/
def parseDigits (s : List Char) : Option Nat :=
  if s.isEmpty then none
  else if s.all Char.isDigit then
    some (s.foldl (fun a c => a * 10 + (c.toNat - 48)) 0)
  else none

/-- Rust unsigned-integer `parse` (`u32`/`usize`): an optional leading `+`,
then digits, failing when the value reaches `bound` (= 2^width). -/
def rustParseNat (bound : Nat) (s : List Char) : Option Nat :=
  let t := match s with
    | '+' :: r => r
    | r => r
  match parseDigits t with
  | some v => if v < bound then some v else none
  | none => none

/-- Rust signed-integer `parse` (`i64`): optional sign, then digits,
within `[-bound, bound)` for `bound = 2^63`. -/
def rustParseInt (bound : Nat) (s : List Char) : Option Int :=
  match s with
  | '-' :: r =>
    match parseDigits r with
    | some v => if v ≤ bound then some (-(v : Int)) else none
    | none => none
  | '+' :: r =>
    match parseDigits r with
    | some v => if v < bound then some (v : Int) else none
    | none => none
  | r =>
    match parseDigits r with
    | some v => if v < bound then some (v : Int) else none
    | none => none

/-- Helper for `splitWs`: accumulate the current word (reversed). -/
def splitWsAux : List Char → List Char → List (List Char)
  | [], acc => if acc.isEmpty then [] else [acc.reverse]
  | c :: t, acc =>
    if c.isWhitespace then
      if acc.isEmpty then splitWsAux t [] else acc.reverse :: splitWsAux t []
    else splitWsAux t (c :: acc)

/-- Rust `str::split_whitespace`: split on whitespace runs, no empty items. -/
def splitWs (s : List Char) : List (List Char) :=
  splitWsAux s []

/-- Helper for `splitOnChar`. -/
def splitOnCharAux (sep : Char) : List Char → List Char → List (List Char)
  | [], acc => [acc.reverse]
  | c :: t, acc =>
    if c = sep then acc.reverse :: splitOnCharAux sep t []
    else splitOnCharAux sep t (c :: acc)

/-- Rust `str::split(sep)` for a `char` separator (keeps empty items). -/
def splitOnChar (sep : Char) (s : List Char) : List (List Char) :=
  splitOnCharAux sep s []

/-- Rust `str::trim_end` (ASCII whitespace). -/
def rustTrimEnd (s : List Char) : List Char :=
  (s.reverse.dropWhile Char.isWhitespace).reverse

/-- Rust `str::trim_start` (ASCII whitespace). -/
def rustTrimStart (s : List Char) : List Char :=
  s.dropWhile Char.isWhitespace

/-- Rust `str::trim` (ASCII whitespace). -/
def rustTrim (s : List Char) : List Char :=
  rustTrimEnd (rustTrimStart s)

/-- `is_leap_year` from `imap/client.rs`. -/
def is_leap_year (y : Int) : Bool :=
  (y % 4 == 0 && y % 100 != 0) || y % 400 == 0

/-- The month-name table inside `parse_imap_date` (`imap/client.rs`):
lowercase three-letter month to month number. -/
def month_from_name (m : List Char) : Option Nat :=
  let l := m.map Char.toLower
  if l = "jan".toList then some 1
  else if l = "feb".toList then some 2
  else if l = "mar".toList then some 3
  else if l = "apr".toList then some 4
  else if l = "may".toList then some 5
  else if l = "jun".toList then some 6
  else if l = "jul".toList then some 7
  else if l = "aug".toList then some 8
  else if l = "sep".toList then some 9
  else if l = "oct".toList then some 10
  else if l = "nov".toList then some 11
  else if l = "dec".toList then some 12
  else none

/-- `parse_imap_date` from `imap/client.rs`: parse
`"DD-Mon-YYYY HH:MM:SS +ZZZZ"` to a Unix timestamp via explicit Gregorian
day counting from 1970 (day-of-month is never range-checked). -/
def parse_imap_date (s : List Char) : Option Int :=
  match splitWs s with
  | p0 :: p1 :: prest =>
    match splitOnChar '-' p0 with
    | [dstr, mstr, ystr] =>
      match rustParseNat (2 ^ 32) dstr with
      | none => none
      | some day =>
        match month_from_name mstr with
        | none => none
        | some month =>
          match rustParseInt (2 ^ 63) ystr with
          | none => none
          | some year =>
            match splitOnChar ':' p1 with
            | [hstr, mistr, sstr] =>
              match rustParseInt (2 ^ 63) hstr, rustParseInt (2 ^ 63) mistr,
                  rustParseInt (2 ^ 63) sstr with
              | some hour, some minute, some second =>
                let tz_offset_secs : Int :=
                  match prest.head? with
                  | some tz =>
                    let sign : Int := if tz.head? = some '-' then -1 else 1
                    let tz_num := tz.dropWhile (fun c => c = '+' || c = '-')
                    if tz_num.length = 4 then
                      let tz_h := (rustParseInt (2 ^ 63) (tz_num.take 2)).getD 0
                      let tz_m := (rustParseInt (2 ^ 63) (tz_num.drop 2)).getD 0
                      sign * (tz_h * 3600 + tz_m * 60)
                    else 0
                  | none => 0
                let days0 : Int := (List.range (year - 1970).toNat).foldl
                  (fun acc i => acc + if is_leap_year (1970 + (i : Int)) then 366 else 365) 0
                let month_days : List Int := [0, 31, 28, 31, 30, 31, 30, 31, 31, 30, 31, 30, 31]
                let days1 : Int := (List.range (month - 1)).foldl
                  (fun acc j =>
                    let dm := acc + month_days.getD (j + 1) 0
                    if j + 1 = 2 && is_leap_year year then dm + 1 else dm) days0
                let days := days1 + (day : Int) - 1
                some (days * 86400 + hour * 3600 + minute * 60 + second - tz_offset_secs)
              | _, _, _ => none
            | _ => none
    | _ => none
  | _ => none

/-- Snippet generation inside `parse_message` (`imap/client.rs` 1220-1232):
replace each whitespace character by a space, trim, and truncate to 200
characters (by character count) with a trailing `"..."` when over. -/
def snippet_of (text : List Char) : List Char :=
  let cleaned := text.map (fun c => if c.isWhitespace then ' ' else c)
  let trimmed := rustTrim cleaned
  if 200 < trimmed.length then trimmed.take 200 ++ "...".toList
  else trimmed

/-- Modelled from the spec's words (§4.4): "collapsing all whitespace to
single spaces, trimming, and truncating to 200 characters ... with a
trailing ellipsis when truncated" — whitespace runs collapse to one space.
For comparison with `snippet_of`, the definition taken from the source. -/
def snippet_spec_collapsed (text : List Char) : List Char :=
  let collapsed := List.intercalate [' '] (splitWs text)
  if 200 < collapsed.length then collapsed.take 200 ++ "...".toList
  else collapsed

/-- The fields of the external `mail_parser` collaborator's output that the
normalizer's date and snippet policy reads (MIME decoding itself is outside
the embedded code). -/
structure ParsedMime where
  header_date : Option Int
  body_text : Option (List Char)
deriving DecidableEq

/-- The date and snippet of the normalized message. -/
structure NormalizedMessage where
  date : Int
  snippet : Option (List Char)
deriving DecidableEq

/-- Date and snippet policy of `parse_message` (`imap/client.rs`
1182-1186, 1220-1232): date is the parsed Date header, else the supplied
INTERNALDATE fallback, else 0; the snippet is derived from the text body. -/
def parse_message_model (m : ParsedMime) (internal_date : Option Int) : NormalizedMessage :=
  { date := (m.header_date.or internal_date).getD 0
    snippet := m.body_text.map snippet_of }

/-- `fetch_message_body` (`imap/client.rs` 296-304) calls `parse_message`
with `internal_date = None`; the INTERNALDATE the server holds for the
message (`server_internal_date`) is never requested nor passed. -/
def fetch_message_body_model (m : ParsedMime) (server_internal_date : Option Int) :
    NormalizedMessage :=
  parse_message_model m none

/-- Per-flag encoding inside `imap_set_flags` (`commands.rs` 127-134):
a backslash is prefixed exactly when the flag does not already start
with one. -/
def encode_flag (f : List Char) : List Char :=
  if f.head? = some '\\' then f else '\\' :: f

/-- The wire form `(\Flag1 \Flag2)` built by `imap_set_flags`
(`commands.rs` 123-137). -/
def flags_wire (flags : List (List Char)) : List Char :=
  '(' :: (List.intercalate " ".toList (flags.map encode_flag) ++ [')'])

/-- The comma-joined decimal UID set built by the `commands.rs` layer. -/
def uid_set_string (uids : List Nat) : List Char :=
  List.intercalate ",".toList (uids.map (fun u => (toString u).toList))

/-- The distinguishable fallback-trigger error's marker
(`imap/client.rs` 223, `commands.rs` 44). -/
def asyncImapEmptyMarker : List Char :=
  "ASYNC_IMAP_EMPTY:".toList

/-- The parser-incompatibility check of `fetch_messages` (`imap/client.rs`
219-224): zero collected fetch items while the selected mailbox reports a
non-zero message count yields the `ASYNC_IMAP_EMPTY:<folder>` error instead
of an empty success; otherwise the collected items proceed to
normalization (abstracted here as returning them). -/
def fetch_messages_check {α : Type} (folder : List Char) (exists_count : Nat)
    (fetches : List α) : Except (List Char) (List α) :=
  if fetches.isEmpty ∧ 0 < exists_count then
    Except.error (asyncImapEmptyMarker ++ folder)
  else Except.ok fetches

/-- `imap_fetch_messages` (`commands.rs` 22-51): empty-UID guard, the
standard-layer attempt on (folder, uid_set), and on an error with the
`ASYNC_IMAP_EMPTY:` marker as its first characters, the raw fallback engine
re-invoked with the same folder and uid_set.  `std` and `raw` are the two
engines as functions of (folder, uid_set); the second component counts
opened connections (0 = no network call). -/
def imap_fetch_messages_cmd {R : Type}
    (std raw : List Char → List Char → Except (List Char) R)
    (folder : List Char) (uids : List Nat) : Except (List Char) R × Nat :=
  if uids.isEmpty then (Except.error "No UIDs provided".toList, 0)
  else
    let uid_set := uid_set_string uids
    match std folder uid_set with
    | Except.ok r => (Except.ok r, 1)
    | Except.error e =>
      if asyncImapEmptyMarker <+: e then (raw folder uid_set, 2)
      else (Except.error e, 1)

/-- `imap_set_flags` (`commands.rs` 101-142): empty-UID guard before any
connection; `work` abstracts connect + SELECT + UID STORE + logout on the
built uid_set.  Second component counts opened connections. -/
def imap_set_flags_cmd (work : List Char → Except (List Char) Unit)
    (uids : List Nat) : Except (List Char) Unit × Nat :=
  if uids.isEmpty then (Except.ok (), 0)
  else (work (uid_set_string uids), 1)

/-- `imap_move_messages` (`commands.rs` 144-166): empty-UID guard before
any connection. -/
def imap_move_messages_cmd
    (work : List Char → List Char → List Char → Except (List Char) Unit)
    (folder : List Char) (uids : List Nat) (destination : List Char) :
    Except (List Char) Unit × Nat :=
  if uids.isEmpty then (Except.ok (), 0)
  else (work folder (uid_set_string uids) destination, 1)

/-- `imap_delete_messages` (`commands.rs` 168-189): empty-UID guard before
any connection. -/
def imap_delete_messages_cmd
    (work : List Char → List Char → Except (List Char) Unit)
    (folder : List Char) (uids : List Nat) : Except (List Char) Unit × Nat :=
  if uids.isEmpty then (Except.ok (), 0)
  else (work folder (uid_set_string uids), 1)

/-- The command pattern shared by the `commands.rs` IMAP operations
(e.g. `imap_list_folders`, 14-19): connect, run the body, attempt logout
with `let _ = session.logout()` — the logout result is discarded — and
return the body's result. -/
def run_with_logout {S A : Type} (connect : Except (List Char) S)
    (body : S → Except (List Char) A) (logout : S → Except (List Char) Unit) :
    Except (List Char) A :=
  match connect with
  | Except.error e => Except.error e
  | Except.ok s =>
    match body s with
    | Except.error e => Except.error e
    | Except.ok a =>
      let _ := logout s
      Except.ok a

/-- `test_connection` (`imap/client.rs` 553-570): connect, LIST (counting
folders), then `session.logout()` whose failure is propagated with `?` as
`"LOGOUT failed: ..."`. -/
def test_connection_model {S : Type} (connect : Except (List Char) S)
    (list_count : S → Except (List Char) Nat)
    (logout : S → Except (List Char) Unit) : Except (List Char) (List Char) :=
  match connect with
  | Except.error e => Except.error e
  | Except.ok s =>
    match list_count s with
    | Except.error e => Except.error e
    | Except.ok n =>
      match logout s with
      | Except.error e => Except.error ("LOGOUT failed: ".toList ++ e)
      | Except.ok _ =>
        Except.ok ("Connected successfully. Found ".toList
          ++ (toString n).toList ++ " folder(s).".toList)

/-- Post-processing of `fetch_new_uids` (`imap/client.rs` 307-327): the
`UID SEARCH` result set (async-imap returns a `HashSet`, hence
duplicate-free, iterated in arbitrary order) is filtered to `u > last_uid`
and sorted ascending.  Rust's stable ascending `sort` is modelled by
`List.insertionSort` (stable sorts of the same list agree pointwise). -/
def fetch_new_uids_post (last_uid : Nat) (uids : List Nat) : List Nat :=
  List.insertionSort (· ≤ ·) (uids.filter (fun u => last_uid < u))

/-- Post-processing of `search_all_uids` (`imap/client.rs` 331-348):
collect the `UID SEARCH ALL` result set and sort ascending. -/
def search_all_uids_post (uids : List Nat) : List Nat :=
  List.insertionSort (· ≤ ·) uids

/-- `BufReader::read_line` over the modelled byte stream: the bytes up to
and including the first line feed (everything, at end of stream), and the
remainder. -/
def readLine : List Char → List Char × List Char
  | [] => ([], [])
  | c :: t =>
    if c = '\n' then ([c], t)
    else (c :: (readLine t).1, (readLine t).2)

/-- Rust `str::rfind` for a `char` pattern: index of the last occurrence. -/
def rfindChar (c : Char) (s : List Char) : Option Nat :=
  match s.reverse.findIdx? (fun x => x = c) with
  | some j => some (s.length - 1 - j)
  | none => none

/-- `extract_literal_size` (`imap/client.rs` 1012-1019): trim the end of
the line; if it ends with `}`, parse what stands after the last `{` and
before the final `}` as a `usize`. -/
def extract_literal_size (line : List Char) : Option Nat :=
  let trimmed := rustTrimEnd line
  if trimmed.getLast? = some '}' then
    match rfindChar '{' trimmed with
    | some brace_start =>
      rustParseNat (2 ^ 64)
        ((trimmed.drop (brace_start + 1)).take (trimmed.length - 1 - (brace_start + 1)))
    | none => none
  else none

/-- `extract_fetch_uid` (`imap/client.rs` 924-930): the digits after the
first `"UID "`, parsed as a `u32`. -/
def extract_fetch_uid (line : List Char) : Option Nat :=
  match findSub "UID ".toList line with
  | some uid_idx =>
    rustParseNat (2 ^ 32) ((line.drop (uid_idx + 4)).takeWhile Char.isDigit)
  | none => none

/-- `extract_flags_from_fetch` (`imap/client.rs` 933-941): the text between
`"FLAGS ("` and the next `)`, or empty. -/
def extract_flags_from_fetch (line : List Char) : List Char :=
  match findSub "FLAGS (".toList line with
  | some flags_start =>
    let after := line.drop (flags_start + 7)
    match after.findIdx? (fun c => c = ')') with
    | some e => after.take e
    | none => []
  | none => []

/-- `extract_internal_date` (`imap/client.rs` 946-953): the text between
`INTERNALDATE "` and the next `"`, run through `parse_imap_date`. -/
def extract_internal_date (line : List Char) : Option Int :=
  match findSub "INTERNALDATE \"".toList line with
  | some idx =>
    let after := line.drop (idx + 14)
    match after.findIdx? (fun c => c = '"') with
    | some e => parse_imap_date (after.take e)
    | none => none
  | none => none

/-- `RawFetchedMessage` (`imap/client.rs` 747-754): the intermediate value
of the fallback path, consumed by the normalizer. -/
structure RawFetchedMessage where
  uid : Nat
  is_read : Bool
  is_starred : Bool
  is_draft : Bool
  internal_date : Option Int
  body : List Char
deriving DecidableEq

/-- The message `raw_parse_fetch_responses` pushes for a FETCH line with a
literal body (`imap/client.rs` 886-912): flags by substring tests inside
the `FLAGS (...)` parenthetical, INTERNALDATE by the manual calendar parse. -/
def mkRawMessage (line : List Char) (uid : Nat) (body : List Char) : RawFetchedMessage :=
  let flags_str := extract_flags_from_fetch line
  { uid := uid
    is_read := containsSub flags_str "\\Seen".toList
    is_starred := containsSub flags_str "\\Flagged".toList
    is_draft := containsSub flags_str "\\Draft".toList
    internal_date := extract_internal_date line
    body := body }

/-- Outcome of one iteration of the FETCH-response loop: stop with the
accumulated messages, fail, or continue on the remaining stream after
pushing at most one message. -/
inductive RawStep where
  | done : RawStep
  | fail (e : List Char) : RawStep
  | next (rest : List Char) (pushed : Option RawFetchedMessage) : RawStep
deriving DecidableEq

/-- One iteration of `raw_parse_fetch_responses` (`imap/client.rs`
851-918) on a nonempty stream: read a line; stop on `a3 OK`; fail on
`a3 NO` / `a3 BAD`; skip non-FETCH lines; on a FETCH line whose UID cannot
be parsed, still consume (read and discard) any announced literal; on a
FETCH line with a UID and a literal of size n, read exactly n bytes as the
body, read the closing line, and push the message.  A literal larger than
the remaining stream is the `read_exact` EOF error. -/
def rawParseStep (tag s : List Char) : RawStep :=
  let line := (readLine s).1
  let rest := (readLine s).2
  if (tag ++ " OK".toList) <+: line then RawStep.done
  else if (tag ++ " NO".toList) <+: line ∨ (tag ++ " BAD".toList) <+: line then
    RawStep.fail ("FETCH failed: ".toList ++ line)
  else if ¬ ("* ".toList <+: line ∧ containsSub line "FETCH".toList = true) then
    RawStep.next rest none
  else
    let uid := (extract_fetch_uid line).getD 0
    if uid = 0 then
      match extract_literal_size line with
      | some n =>
        if n ≤ rest.length then RawStep.next (rest.drop n) none
        else RawStep.fail "discard literal: unexpected end of file".toList
      | none => RawStep.next rest none
    else
      match extract_literal_size line with
      | some n =>
        if n ≤ rest.length then
          RawStep.next ((readLine (rest.drop n)).2)
            (some (mkRawMessage line uid (rest.take n)))
        else RawStep.fail "read literal: unexpected end of file".toList
      | none => RawStep.next rest none

/-- The second component of `readLine` is never longer than the stream. -/
theorem readLine_snd_length_le (s : List Char) : (readLine s).2.length ≤ s.length := by
  induction s with
  | nil => simp [readLine]
  | cons c t ih =>
    by_cases hc : c = '\n'
    · simp [readLine, hc]
    · simp only [readLine, hc, if_false, List.length_cons]
      omega

/-- On a nonempty stream, `readLine` consumes at least one byte. -/
theorem readLine_snd_length_lt (s : List Char) (hs : s ≠ []) :
    (readLine s).2.length < s.length := by
  cases s with
  | nil => exact absurd rfl hs
  | cons c t =>
    have ht := readLine_snd_length_le t
    by_cases hc : c = '\n'
    · simp [readLine, hc]
    · simp only [readLine, hc, if_false, List.length_cons]
      omega

/-- Every continuation `rawParseStep` produces on a nonempty stream is
strictly shorter than the stream (each iteration consumes at least the
line it read). -/
theorem rawParseStep_next_length_lt (tag s r : List Char)
    (p : Option RawFetchedMessage) (hs : s ≠ [])
    (h : rawParseStep tag s = RawStep.next r p) : r.length < s.length := by
  have hlt := readLine_snd_length_lt s hs
  have hle : ∀ n, ((readLine s).2.drop n).length ≤ (readLine s).2.length := by
    intro n; simp
  unfold rawParseStep at h
  dsimp only at h
  split_ifs at h <;>
    first
      | exact RawStep.noConfusion h
      | (injection h with e1 e2; subst e1; exact hlt)
      | (cases hsz : extract_literal_size (readLine s).1 <;> rw [hsz] at h <;>
          dsimp only at h <;>
          first
            | (injection h with e1 e2; subst e1; exact hlt)
            | (split_ifs at h with hn <;>
                first
                  | exact RawStep.noConfusion h
                  | (injection h with e1 e2; subst e1;
                     exact lt_of_le_of_lt (hle _) hlt)
                  | (injection h with e1 e2; subst e1;
                     exact lt_of_le_of_lt
                       (le_trans (readLine_snd_length_le _) (hle _)) hlt)))

/-- The FETCH-response loop of `raw_parse_fetch_responses` (`imap/client.rs`
842-921): iterate `rawParseStep`, accumulating pushed messages; an empty
stream is the connection-closed error. -/
def rawParseLoop (tag s : List Char) (acc : List RawFetchedMessage) :
    Except (List Char) (List RawFetchedMessage) :=
  if hs : s = [] then Except.error "Connection closed during FETCH".toList
  else
    match h : rawParseStep tag s with
    | RawStep.done => Except.ok acc
    | RawStep.fail e => Except.error e
    | RawStep.next rest pushed => rawParseLoop tag rest (acc ++ pushed.toList)
termination_by s.length
decreasing_by
exact rawParseStep_next_length_lt tag s rest pushed hs h

/-- `raw_parse_fetch_responses` (`imap/client.rs` 842-921). -/
def raw_parse_fetch_responses (tag s : List Char) :
    Except (List Char) (List RawFetchedMessage) :=
  rawParseLoop tag s []

/-- `parse_untagged_number` (`imap/client.rs` 811-819): `"* <n> <KEYWORD>"`
gives n. -/
def parse_untagged_number (line keyword : List Char) : Option Nat :=
  let trimmed := rustTrim line
  if ("* ".toList <+: trimmed) ∧ (keyword <:+ trimmed) then
    rustParseNat (2 ^ 32)
      (rustTrim ((trimmed.drop 2).take (trimmed.length - keyword.length - 2)))
  else none

/-- `extract_bracket_number` (`imap/client.rs` 822-831): the number in
`"[KEYWORD <n>]"`. -/
def extract_bracket_number (line keyword : List Char) : Option Nat :=
  let pattern := '[' :: (keyword ++ [' '])
  match findSub pattern line with
  | some start =>
    let after := line.drop (start + pattern.length)
    match after.findIdx? (fun c => c = ']') with
    | some e => rustParseNat (2 ^ 32) (rustTrim (after.take e))
    | none => none
  | none => none

/-- Strip one trailing carriage return (the tail of Rust `str::lines`). -/
def stripCr (l : List Char) : List Char :=
  match l.getLast? with
  | some '\r' => l.dropLast
  | _ => l

/-- Rust `str::lines`: split on line feeds, dropping a final empty segment
and one trailing carriage return per line. -/
def rustLines (s : List Char) : List (List Char) :=
  let parts := splitOnChar '\n' s
  let parts := if parts.getLast? = some [] then parts.dropLast else parts
  parts.map stripCr

/-- `ImapFolderStatus` (`imap/types.rs` 65-71); `exists_count` is the
source's `exists` field (a Lean keyword). -/
structure ImapFolderStatus where
  uidvalidity : Nat
  uidnext : Nat
  exists_count : Nat
  unseen : Nat
  highest_modseq : Option Nat
deriving DecidableEq

/-- The SELECT-response scavenging of `raw_fetch_messages`
(`imap/client.rs` 614-640): fold over the response lines accumulating
EXISTS / UIDVALIDITY / UNSEEN by substring search, then build the folder
status with `uidnext := 0` and `highest_modseq := None`. -/
def raw_select_folder_status (select_response_lines : List (List Char)) :
    ImapFolderStatus :=
  let st := select_response_lines.foldl
    (fun (st : Nat × Nat × Nat) line =>
      let e := match parse_untagged_number line "EXISTS".toList with
        | some n => n
        | none => st.1
      let uv := if containsSub line "[UIDVALIDITY".toList then
          match extract_bracket_number line "UIDVALIDITY".toList with
          | some v => v
          | none => st.2.1
        else st.2.1
      let us := if containsSub line "[UNSEEN".toList then
          match extract_bracket_number line "UNSEEN".toList with
          | some v => v
          | none => st.2.2
        else st.2.2
      (e, uv, us))
    (0, 0, 0)
  { uidvalidity := st.2.1
    uidnext := 0
    exists_count := st.1
    unseen := st.2.2
    highest_modseq := none }

/-- The result of a successful raw fallback fetch before normalization. -/
structure RawFetchOutcome where
  messages : List RawFetchedMessage
  folder_status : ImapFolderStatus
deriving DecidableEq

/-- `raw_fetch_messages` after authentication (`imap/client.rs` 610-677):
scavenge the SELECT response for the folder status, run the FETCH response
parser under tag `a3`, and on success return the parsed messages with that
status.  Connection, LOGIN, MIME normalization and the fire-and-forget
LOGOUT are outside the embedded code; `select_response` and `fetch_stream`
are the byte streams the server sent for the two commands. -/
def raw_fetch_messages_model (select_response fetch_stream : List Char) :
    Except (List Char) RawFetchOutcome :=
  let folder_status := raw_select_folder_status (rustLines select_response)
  match raw_parse_fetch_responses "a3".toList fetch_stream with
  | Except.error e => Except.error e
  | Except.ok msgs =>
    Except.ok { messages := msgs, folder_status := folder_status }

/-- `readLine` on a stream starting with one full line returns exactly that
line (newline included) and the rest, whatever bytes follow. -/
theorem readLine_line_append (l' r : List Char) (h : '\n' ∉ l') :
    readLine (l' ++ '\n' :: r) = (l' ++ ['\n'], r) := by
  induction l' with
  | nil => simp [readLine]
  | cons c t ih =>
    have hc : c ≠ '\n' := fun hc => h (hc ▸ List.mem_cons_self c t)
    have ht : '\n' ∉ t := fun hm => h (List.mem_cons_of_mem c hm)
    simp only [List.cons_append, readLine, hc, if_false, List.append_eq]
    rw [ih ht]

/-- `dropWhile` is the identity when no element satisfies the predicate. -/
theorem dropWhile_of_all_false {p : Char → Bool} (l : List Char)
    (h : ∀ c ∈ l, p c = false) : l.dropWhile p = l := by
  cases l with
  | nil => rfl
  | cons c t => simp [List.dropWhile_cons, h c (List.mem_cons_self c t)]

/-- `rustTrim` is the identity on whitespace-free text. -/
theorem rustTrim_of_no_ws (s : List Char) (h : ∀ c ∈ s, c.isWhitespace = false) :
    rustTrim s = s := by
  unfold rustTrim rustTrimStart rustTrimEnd
  rw [dropWhile_of_all_false s h]
  rw [dropWhile_of_all_false s.reverse (fun c hc => h c (List.mem_reverse.mp hc))]
  exact List.reverse_reverse s

/-- The whitespace-to-space map is the identity on whitespace-free text. -/
theorem map_ws_of_no_ws (s : List Char) (h : ∀ c ∈ s, c.isWhitespace = false) :
    s.map (fun c => if c.isWhitespace then ' ' else c) = s := by
  induction s with
  | nil => rfl
  | cons c t ih =>
    have hc := h c (List.mem_cons_self c t)
    have ht := ih (fun x hx => h x (List.mem_cons_of_mem c hx))
    simp [hc, ht]

/-- Unfolding `rawParseLoop` when the step stops at the tagged OK line. -/
theorem rawParseLoop_eq_of_done (tag s : List Char) (hs : s ≠ [])
    (h : rawParseStep tag s = RawStep.done) :
    ∀ acc, rawParseLoop tag s acc = Except.ok acc := by
  intro acc
  rw [rawParseLoop, dif_neg hs]
  split
  · rfl
  · rename_i e heq
    rw [h] at heq
    exact RawStep.noConfusion heq
  · rename_i rest pushed heq
    rw [h] at heq
    exact RawStep.noConfusion heq

/-- Unfolding `rawParseLoop` when the step continues: the loop proceeds on
the continuation stream with the pushed message appended. -/
theorem rawParseLoop_eq_of_next (tag s rest : List Char)
    (pushed : Option RawFetchedMessage) (hs : s ≠ [])
    (h : rawParseStep tag s = RawStep.next rest pushed) :
    ∀ acc, rawParseLoop tag s acc = rawParseLoop tag rest (acc ++ pushed.toList) := by
  intro acc
  rw [rawParseLoop, dif_neg hs]
  split
  · rename_i heq
    rw [h] at heq
    exact RawStep.noConfusion heq
  · rename_i e heq
    rw [h] at heq
    exact RawStep.noConfusion heq
  · rename_i rest' pushed' heq
    rw [h] at heq
    injection heq with e1 e2
    subst e1
    subst e2
    rfl

/-- C3 (amended): the raw fallback engine's calendar parser maps
`"01-Jan-2000 00:00:00 +0000"` to 946684800 (2000-01-01T00:00:00Z), parses
`"29-Feb-2024 12:00:00 +0000"` to 1709208000 (leap day handled), applies
timezone offsets correctly in both directions, and accepts
`"29-Feb-2023 12:00:00 +0000"`, silently normalizing it to 1677672000
(2023-03-01T12:00:00Z) instead of rejecting it. -/
theorem c3_calendar_parsing :
    parse_imap_date "01-Jan-2000 00:00:00 +0000".toList = some 946684800
    ∧ parse_imap_date "29-Feb-2024 12:00:00 +0000".toList = some 1709208000
    ∧ parse_imap_date "01-Jan-2000 01:00:00 +0100".toList = some 946684800
    ∧ parse_imap_date "31-Dec-1999 19:00:00 -0500".toList = some 946684800
    ∧ parse_imap_date "29-Feb-2023 12:00:00 +0000".toList = some 1677672000 := by
  refine ⟨?_, ?_, ?_, ?_, ?_⟩ <;> decide

/-- C3 counterexample: the claim says `"29-Feb-2023 12:00:00 +0000"` (not a
real date) is rejected or defined as invalid; in fact `parse_imap_date`
accepts it and returns the timestamp of 2023-03-01T12:00:00Z — the same
value it returns for `"01-Mar-2023 12:00:00 +0000"`. -/
theorem c3_accepts_feb_29_2023 :
    parse_imap_date "29-Feb-2023 12:00:00 +0000".toList ≠ none
    ∧ parse_imap_date "29-Feb-2023 12:00:00 +0000".toList
      = parse_imap_date "01-Mar-2023 12:00:00 +0000".toList := by
  refine ⟨?_, ?_⟩ <;> decide

/-- C4 (amended): the normalizer's snippet replaces each whitespace
character by a space (runs are not merged), trims, and truncates to 200
characters (counted by character) with a trailing ellipsis; on
whitespace-free bodies this is exactly truncate-at-200-plus-ellipsis, so a
250-character body yields 200 characters plus `"..."` and a 150-character
body is returned unchanged; every snippet is at most 203 characters. -/
theorem c4_snippet_truncation :
    (∀ (m : ParsedMime) (internal_date : Option Int) (text : List Char),
        m.body_text = some text → (∀ c ∈ text, c.isWhitespace = false) →
        (parse_message_model m internal_date).snippet
          = some (if 200 < text.length then text.take 200 ++ "...".toList else text))
    ∧ (∀ text : List Char, (snippet_of text).length ≤ 203) := by
  constructor
  · intro m internal_date text hm hws
    have hsnip : snippet_of text
        = if 200 < text.length then text.take 200 ++ "...".toList else text := by
      simp only [snippet_of]
      rw [map_ws_of_no_ws text hws, rustTrim_of_no_ws text hws]
    simp [parse_message_model, hm, hsnip]
  · intro text
    simp only [snippet_of]
    split_ifs with hlen
    · simp only [List.length_append, List.length_take]
      have : ("...".toList).length = 3 := by decide
      omega
    · omega

set_option maxRecDepth 4096 in
/-- C4 witness: a 250-character whitespace-free body yields the first 200
characters plus an ellipsis; a 150-character body is returned unchanged. -/
theorem c4_snippet_truncation_witness :
    (parse_message_model ⟨none, some (List.replicate 250 'x')⟩ none).snippet
      = some (List.replicate 200 'x' ++ "...".toList)
    ∧ (parse_message_model ⟨none, some (List.replicate 150 'x')⟩ none).snippet
      = some (List.replicate 150 'x') := by
  constructor
  · rw [c4_snippet_truncation.1 ⟨none, some (List.replicate 250 'x')⟩ none
      (List.replicate 250 'x') rfl (by decide)]
    decide
  · rw [c4_snippet_truncation.1 ⟨none, some (List.replicate 150 'x')⟩ none
      (List.replicate 150 'x') rfl (by decide)]
    decide

/-- C4 counterexample: the claim's "collapsing all whitespace to single
spaces" fails on the code — `"a"` then two tabs then `"b"` becomes
`"a  b"` (two spaces, one per whitespace character), not `"a b"` as the
collapse-to-single-spaces reading (`snippet_spec_collapsed`) produces. -/
theorem c4_tab_run_not_collapsed :
    snippet_of "a\t\tb".toList ≠ snippet_spec_collapsed "a\t\tb".toList
    ∧ snippet_of "a\t\tb".toList = "a  b".toList
    ∧ snippet_spec_collapsed "a\t\tb".toList = "a b".toList := by
  refine ⟨?_, ?_, ?_⟩ <;> decide

/-- C5: `search_all_uids` and `fetch_new_uids` post-process the library's
UID-set answer (duplicate-free, arbitrary order) into strictly ascending,
duplicate-free sequences, and `fetch_new_uids` with `last_uid = N` never
returns any UID ≤ N even when the server's `(N+1):*` answer contains N. -/
theorem c5_uid_sequences_sorted (last_uid : Nat) (uids : List Nat)
    (h : uids.Nodup) :
    (search_all_uids_post uids).Sorted (· < ·)
    ∧ (fetch_new_uids_post last_uid uids).Sorted (· < ·)
    ∧ ∀ u ∈ fetch_new_uids_post last_uid uids, last_uid < u := by
  refine ⟨?_, ?_, ?_⟩
  · have hs : (search_all_uids_post uids).Sorted (· ≤ ·) :=
      List.sorted_insertionSort _ uids
    have hn : (search_all_uids_post uids).Nodup :=
      (List.perm_insertionSort _ uids).symm.nodup h
    exact hs.lt_of_le hn
  · have hs : (fetch_new_uids_post last_uid uids).Sorted (· ≤ ·) :=
      List.sorted_insertionSort _ _
    have hn : (fetch_new_uids_post last_uid uids).Nodup :=
      (List.perm_insertionSort _ _).symm.nodup (h.filter _)
    exact hs.lt_of_le hn
  · intro u hu
    have hu' : u ∈ uids.filter (fun u => last_uid < u) :=
      (List.perm_insertionSort _ _).mem_iff.mp hu
    simpa using (List.mem_filter.mp hu').2

/-- C5 witness: the invariants at the concrete duplicate-free server answer
`[9, 2, 7, 5]` with `last_uid = 5`. -/
theorem c5_uid_sequences_sorted_witness :
    (search_all_uids_post [9, 2, 7, 5]).Sorted (· < ·)
    ∧ (fetch_new_uids_post 5 [9, 2, 7, 5]).Sorted (· < ·)
    ∧ ∀ u ∈ fetch_new_uids_post 5 [9, 2, 7, 5], 5 < u :=
  c5_uid_sequences_sorted 5 [9, 2, 7, 5] (by decide)

/-- C6: flag-set, move and delete called with an empty UID list return
success with zero connections opened, and fetch returns the defined
`"No UIDs provided"` input error with zero connections opened — whatever
the network-facing parts would do. -/
theorem c6_empty_uid_set_no_network {R : Type}
    (std raw : List Char → List Char → Except (List Char) R)
    (folder destination : List Char)
    (flag_work : List Char → Except (List Char) Unit)
    (move_work : List Char → List Char → List Char → Except (List Char) Unit)
    (delete_work : List Char → List Char → Except (List Char) Unit) :
    imap_set_flags_cmd flag_work [] = (Except.ok (), 0)
    ∧ imap_move_messages_cmd move_work folder [] destination = (Except.ok (), 0)
    ∧ imap_delete_messages_cmd delete_work folder [] = (Except.ok (), 0)
    ∧ imap_fetch_messages_cmd std raw folder []
      = (Except.error "No UIDs provided".toList, 0) :=
  ⟨rfl, rfl, rfl, rfl⟩

/-- C7: encoding a flag name carrying no backslash and the same name
already prefixed with one produce identical wire forms, per flag and in
the full `(\Flag1 \Flag2)` wire string. -/
theorem c7_flag_backslash_idempotent (f : List Char) (h : '\\' ∉ f) :
    encode_flag f = encode_flag ('\\' :: f)
    ∧ ∀ fs : List (List Char),
        flags_wire (f :: fs) = flags_wire (('\\' :: f) :: fs) := by
  have hne : f.head? ≠ some '\\' := by
    cases f with
    | nil => simp
    | cons c t =>
      simp only [List.head?_cons, ne_eq, Option.some.injEq]
      exact fun hc => h (hc ▸ List.mem_cons_self c t)
  have h1 : encode_flag f = '\\' :: f := by
    unfold encode_flag
    rw [if_neg hne]
  have h2 : encode_flag ('\\' :: f) = '\\' :: f := by
    simp [encode_flag]
  refine ⟨h1.trans h2.symm, ?_⟩
  intro fs
  unfold flags_wire
  simp only [List.map_cons, h1, h2]

/-- C7 witness: `"Seen"` and `"\Seen"` encode identically, per flag and in
the wire form. -/
theorem c7_flag_backslash_idempotent_witness :
    encode_flag "Seen".toList = encode_flag "\\Seen".toList
    ∧ flags_wire ["Seen".toList] = flags_wire ["\\Seen".toList] := by
  have h := c7_flag_backslash_idempotent "Seen".toList (by decide)
  exact ⟨h.1, h.2 []⟩

/-- C8 (amended): in the `commands.rs` operations the logout outcome is
discarded (`let _ = session.logout()`), so the operation's result does not
depend on the logout function at all, and a successful body yields that
success whatever logout does; `imap_test_connection`, however, propagates
a LOGOUT failure (see `c8_test_connection_propagates_logout_failure`). -/
theorem c8_logout_result_discarded {S A : Type} :
    (∀ (connect : Except (List Char) S) (body : S → Except (List Char) A)
        (logout1 logout2 : S → Except (List Char) Unit),
        run_with_logout connect body logout1 = run_with_logout connect body logout2)
    ∧ (∀ (connect : Except (List Char) S) (body : S → Except (List Char) A)
        (logout : S → Except (List Char) Unit) (s : S) (a : A),
        connect = Except.ok s → body s = Except.ok a →
        run_with_logout connect body logout = Except.ok a) := by
  constructor
  · intro connect body logout1 logout2
    cases connect with
    | error e => rfl
    | ok s =>
      cases hb : body s with
      | error e => simp [run_with_logout, hb]
      | ok a => simp [run_with_logout, hb]
  · intro connect body logout s a hc hb
    subst hc
    simp [run_with_logout, hb]

/-- C8 witness: a successful body survives a failing logout. -/
theorem c8_logout_result_discarded_witness :
    run_with_logout (Except.ok ()) (fun _ => Except.ok (3 : Nat))
        (fun _ => Except.error "logout refused".toList)
      = Except.ok 3 :=
  c8_logout_result_discarded.2 (Except.ok ()) (fun _ => Except.ok 3)
    (fun _ => Except.error "logout refused".toList) () 3 rfl rfl

/-- C8 counterexample: `test_connection` does not discard the logout
outcome — with a successful connect and LIST of 3 folders but a failing
LOGOUT, the whole call returns the LOGOUT error, not the success message
the claim requires for every public IMAP operation. -/
theorem c8_test_connection_propagates_logout_failure :
    test_connection_model (Except.ok ()) (fun _ => Except.ok 3)
        (fun _ => Except.error "boom".toList)
      = Except.error "LOGOUT failed: boom".toList := by
  rfl

/-- C10: the single-message fetch passes no internal-date fallback to the
normalizer, so a message with no (or unparseable) Date header gets
timestamp 0 whatever INTERNALDATE the server holds — though the normalizer
would have used it had it been passed, as the multi-message fetch path
does. -/
theorem c10_single_fetch_ignores_internal_date (m : ParsedMime)
    (server_internal_date : Option Int) (h : m.header_date = none) :
    (fetch_message_body_model m server_internal_date).date = 0
    ∧ ∀ d : Int, (parse_message_model m (some d)).date = d := by
  constructor
  · simp [fetch_message_body_model, parse_message_model, h]
  · intro d
    simp [parse_message_model, h]

/-- C10 witness: with no Date header and a server INTERNALDATE of 12345,
the single-message fetch still returns timestamp 0. -/
theorem c10_single_fetch_ignores_internal_date_witness :
    (fetch_message_body_model ⟨none, none⟩ (some 12345)).date = 0
    ∧ ∀ d : Int, (parse_message_model ⟨none, none⟩ (some d)).date = d :=
  c10_single_fetch_ignores_internal_date ⟨none, none⟩ (some 12345) rfl

/-- A prefix determines the head of the longer list. -/
theorem head_eq_of_front {p s : List Char} (hp : p <+: s) {c : Char}
    (hc : p.head? = some c) : s.head? = some c := by
  obtain ⟨t, rfl⟩ := hp
  cases p with
  | nil => exact Option.noConfusion hc
  | cons a l => simpa using hc

/-- C2: when the standard-layer UID FETCH collects zero items while the
selected mailbox reports a non-zero message count, `fetch_messages` fails
with the distinguishable `ASYNC_IMAP_EMPTY:<folder>` error (not an empty
success), and `imap_fetch_messages` then re-issues the identical folder
and uid-set arguments through the raw fallback engine. -/
theorem c2_empty_fetch_triggers_fallback {R : Type}
    (std raw : List Char → List Char → Except (List Char) (List R))
    (folder : List Char) (uids : List Nat) (exists_count : Nat)
    (hne : uids ≠ []) (hex : 0 < exists_count)
    (hstd : std folder (uid_set_string uids)
        = fetch_messages_check folder exists_count ([] : List R)) :
    std folder (uid_set_string uids)
      = Except.error (asyncImapEmptyMarker ++ folder)
    ∧ imap_fetch_messages_cmd std raw folder uids
      = (raw folder (uid_set_string uids), 2) := by
  have hchk : fetch_messages_check folder exists_count ([] : List R)
      = Except.error (asyncImapEmptyMarker ++ folder) := by
    simp [fetch_messages_check, hex]
  have hstd' := hstd.trans hchk
  refine ⟨hstd', ?_⟩
  cases uids with
  | nil => exact absurd rfl hne
  | cons u us =>
    unfold imap_fetch_messages_cmd
    rw [if_neg (by simp)]
    dsimp only
    rw [hstd']
    dsimp only
    rw [if_pos ⟨folder, rfl⟩]

/-- C2 witness: a standard layer that collects zero items against a
5-message INBOX makes the command dispatch to the raw engine's answer. -/
theorem c2_empty_fetch_triggers_fallback_witness :
    imap_fetch_messages_cmd
        (fun _ _ => fetch_messages_check "INBOX".toList 5 ([] : List Unit))
        (fun _ _ => Except.ok []) "INBOX".toList [1, 2]
      = (Except.ok [], 2) := by
  have h := c2_empty_fetch_triggers_fallback
      (fun _ _ => fetch_messages_check "INBOX".toList 5 ([] : List Unit))
      (fun _ _ => Except.ok []) "INBOX".toList [1, 2] 5 (by decide)
      (by decide) rfl
  exact h.2

/-- C9: every successful raw-fallback fetch returns a folder status with
`uidnext = 0` and no `highest_modseq`, whatever the server's SELECT
response said — the scavenger only recovers EXISTS, UIDVALIDITY and
UNSEEN. -/
theorem c9_raw_fallback_zero_uidnext (select_response fetch_stream : List Char)
    (out : RawFetchOutcome)
    (h : raw_fetch_messages_model select_response fetch_stream = Except.ok out) :
    out.folder_status.uidnext = 0 ∧ out.folder_status.highest_modseq = none := by
  unfold raw_fetch_messages_model at h
  dsimp only at h
  cases hp : raw_parse_fetch_responses "a3".toList fetch_stream <;> rw [hp] at h
  case error e => exact Except.noConfusion h
  case ok msgs =>
    dsimp only at h
    injection h with h1
    subst h1
    exact ⟨rfl, rfl⟩

/-- C9 witness: a SELECT response advertising `UIDNEXT 999` and
`HIGHESTMODSEQ 4` still yields `uidnext = 0` and no modseq. -/
theorem c9_raw_fallback_zero_uidnext_witness :
    (RawFetchOutcome.mk []
        (raw_select_folder_status (rustLines
          "* 5 EXISTS\r\n* OK [UIDVALIDITY 77] ok\r\n* OK [UIDNEXT 999] predicted\r\n* OK [HIGHESTMODSEQ 4] mod\r\n* OK [UNSEEN 2] first\r\na2 OK done\r\n".toList))).folder_status.uidnext
      = 0
    ∧ (RawFetchOutcome.mk []
        (raw_select_folder_status (rustLines
          "* 5 EXISTS\r\n* OK [UIDVALIDITY 77] ok\r\n* OK [UIDNEXT 999] predicted\r\n* OK [HIGHESTMODSEQ 4] mod\r\n* OK [UNSEEN 2] first\r\na2 OK done\r\n".toList))).folder_status.highest_modseq
      = none := by
  refine c9_raw_fallback_zero_uidnext
      "* 5 EXISTS\r\n* OK [UIDVALIDITY 77] ok\r\n* OK [UIDNEXT 999] predicted\r\n* OK [HIGHESTMODSEQ 4] mod\r\n* OK [UNSEEN 2] first\r\na2 OK done\r\n".toList
      "a3 OK UID FETCH done\r\n".toList _ ?_
  unfold raw_fetch_messages_model raw_parse_fetch_responses
  dsimp only
  rw [rawParseLoop_eq_of_done "a3".toList _ (by decide) (by decide)]

/-- C1: in the raw fallback FETCH-response parser, a FETCH line announcing
a literal of N bytes is followed by exactly N bytes of body read verbatim
(the body may contain any CR/LF sequence, and N = 0 works), after which
line-oriented parsing resumes immediately (the closing line, then the next
response line); when the line yields no UID the announced literal is still
read and discarded, so the parser continues exactly at the stream position
after the literal. -/
theorem c1_literal_exact_consumption (l' body cl' s : List Char)
    (hl : '\n' ∉ l') (hcl : '\n' ∉ cl')
    (hstar : "* ".toList <+: (l' ++ ['\n']))
    (hfetch : containsSub (l' ++ ['\n']) "FETCH".toList = true)
    (hsize : extract_literal_size (l' ++ ['\n']) = some body.length) :
    ((extract_fetch_uid (l' ++ ['\n'])).getD 0 ≠ 0 →
      rawParseStep "a3".toList (l' ++ '\n' :: (body ++ (cl' ++ '\n' :: s)))
          = RawStep.next s (some (mkRawMessage (l' ++ ['\n'])
              ((extract_fetch_uid (l' ++ ['\n'])).getD 0) body))
      ∧ ∀ acc, rawParseLoop "a3".toList (l' ++ '\n' :: (body ++ (cl' ++ '\n' :: s))) acc
          = rawParseLoop "a3".toList s (acc ++ [mkRawMessage (l' ++ ['\n'])
              ((extract_fetch_uid (l' ++ ['\n'])).getD 0) body]))
    ∧ ((extract_fetch_uid (l' ++ ['\n'])).getD 0 = 0 →
      rawParseStep "a3".toList (l' ++ '\n' :: (body ++ s)) = RawStep.next s none
      ∧ ∀ acc, rawParseLoop "a3".toList (l' ++ '\n' :: (body ++ s)) acc
          = rawParseLoop "a3".toList s acc) := by
  have hhead : (l' ++ ['\n']).head? = some '*' :=
    head_eq_of_front hstar (by decide)
  have hnotok : ¬ (("a3".toList ++ " OK".toList) <+: (l' ++ ['\n'])) := fun hp =>
    absurd ((@head_eq_of_front _ _ hp 'a' (by decide)).symm.trans hhead) (by decide)
  have hnotnb : ¬ ((("a3".toList ++ " NO".toList) <+: (l' ++ ['\n']))
      ∨ (("a3".toList ++ " BAD".toList) <+: (l' ++ ['\n']))) := fun hp =>
    hp.elim
      (fun hp1 =>
        absurd ((@head_eq_of_front _ _ hp1 'a' (by decide)).symm.trans hhead) (by decide))
      (fun hp2 =>
        absurd ((@head_eq_of_front _ _ hp2 'a' (by decide)).symm.trans hhead) (by decide))
  constructor
  · intro huid
    have hstep : rawParseStep "a3".toList (l' ++ '\n' :: (body ++ (cl' ++ '\n' :: s)))
        = RawStep.next s (some (mkRawMessage (l' ++ ['\n'])
            ((extract_fetch_uid (l' ++ ['\n'])).getD 0) body)) := by
      unfold rawParseStep
      rw [readLine_line_append l' _ hl]
      dsimp only
      rw [if_neg hnotok, if_neg hnotnb, if_neg (not_not_intro ⟨hstar, hfetch⟩),
        if_neg huid, hsize]
      dsimp only
      rw [if_pos (by rw [List.length_append]; exact Nat.le_add_right _ _)]
      rw [List.take_left, List.drop_left, readLine_line_append cl' s hcl]
    refine ⟨hstep, fun acc => ?_⟩
    rw [rawParseLoop_eq_of_next _ _ _ _ (by simp) hstep acc]
    exact congrArg (rawParseLoop "a3".toList s) (by simp)
  · intro huid
    have hstep : rawParseStep "a3".toList (l' ++ '\n' :: (body ++ s))
        = RawStep.next s none := by
      unfold rawParseStep
      rw [readLine_line_append l' _ hl]
      dsimp only
      rw [if_neg hnotok, if_neg hnotnb, if_neg (not_not_intro ⟨hstar, hfetch⟩),
        if_pos huid, hsize]
      dsimp only
      rw [if_pos (by rw [List.length_append]; exact Nat.le_add_right _ _)]
      rw [List.drop_left]
    refine ⟨hstep, fun acc => ?_⟩
    rw [rawParseLoop_eq_of_next _ _ _ _ (by simp) hstep acc]
    exact congrArg (rawParseLoop "a3".toList s) (by simp)

/-- C1 witness: a FETCH line announcing `{5}` whose 5-byte literal contains
CR and LF is consumed exactly, with parsing resuming at the next line; a
FETCH line with no parsable UID and a `{0}` literal is consumed and
skipped, leaving the stream at the next line. -/
theorem c1_literal_exact_consumption_witness :
    rawParseStep "a3".toList
        ("* 1 FETCH (UID 7 FLAGS (\\Seen) BODY[] {5}\r".toList
          ++ '\n' :: ("ab\r\nc".toList ++ (")\r".toList ++ '\n' :: "a3 OK done\r\n".toList)))
      = RawStep.next "a3 OK done\r\n".toList
          (some (mkRawMessage ("* 1 FETCH (UID 7 FLAGS (\\Seen) BODY[] {5}\r".toList ++ ['\n'])
            ((extract_fetch_uid ("* 1 FETCH (UID 7 FLAGS (\\Seen) BODY[] {5}\r".toList ++ ['\n'])).getD 0)
            "ab\r\nc".toList))
    ∧ rawParseStep "a3".toList
        ("* 2 FETCH (FLAGS (\\Seen) BODY[] {0}\r".toList
          ++ '\n' :: (([] : List Char) ++ "a3 OK done\r\n".toList))
      = RawStep.next "a3 OK done\r\n".toList none := by
  constructor
  · exact ((c1_literal_exact_consumption
      "* 1 FETCH (UID 7 FLAGS (\\Seen) BODY[] {5}\r".toList
      "ab\r\nc".toList ")\r".toList "a3 OK done\r\n".toList
      (by decide) (by decide) (by decide) (by decide) (by decide)).1 (by decide)).1
  · exact ((c1_literal_exact_consumption
      "* 2 FETCH (FLAGS (\\Seen) BODY[] {0}\r".toList
      [] [] "a3 OK done\r\n".toList
      (by decide) (by decide) (by decide) (by decide) (by decide)).2 (by decide)).1

end Velo
